import Mathlib

/-!
# Verification of the NDArray storage-duality core (`src/math/ndarray.ts`)

A shallow embedding of the tensor value type of this repository: shape and
stride computation, construction and rank dispatch, reshape, host/GPU
storage migration (`getTexture` / `getValues`), disposal and equality.
JS object mutation is modelled with an explicit heap of `NDArrayData`
records indexed by `dataRef`, so that reshape aliasing is faithful; the
texture manager and GPGPU context (external collaborators) are modelled
abstractly: `downloadMatrixFromTexture` returns exactly the buffer that
`uploadMatrixToTexture` stored under the same handle.
-/

namespace NDSpec

/-- Element-type tags, mirroring the `DataType` interface keys
(`float32`, `int32`, `bool`). -/
inductive DType where
  | float32
  | int32
  | bool
deriving DecidableEq, Repr

/-- A concrete JS typed array: its runtime constructor tag together with its
element list.  Elements are modelled as integers (all the values the claims
exercise are exactly representable). -/
inductive TypedArray where
  | float32Arr : List Int → TypedArray
  | int32Arr : List Int → TypedArray
  | uint8Arr : List Int → TypedArray
deriving DecidableEq, Repr

/-- The element list of a typed array. -/
def TypedArray.toList : TypedArray → List Int
  | .float32Arr l => l
  | .int32Arr l => l
  | .uint8Arr l => l

/-- Write one element in place, preserving the runtime constructor tag. -/
def TypedArray.setIdx : TypedArray → Nat → Int → TypedArray
  | .float32Arr l, i, v => .float32Arr (l.set i v)
  | .int32Arr l, i, v => .int32Arr (l.set i v)
  | .uint8Arr l, i, v => .uint8Arr (l.set i v)

/-- Whether the buffer's runtime constructor is `Float32Array`. -/
def TypedArray.isFloat32 : TypedArray → Bool
  | .float32Arr _ => true
  | _ => false

/-- Which concrete buffer constructor the `DataType` interface declares for a
tag (`float32 ↦ Float32Array`, `int32 ↦ Int32Array`, `bool ↦ Uint8Array`). -/
def DType.bufferMatches : DType → TypedArray → Bool
  | .float32, .float32Arr _ => true
  | .int32, .int32Arr _ => true
  | .bool, .uint8Arr _ => true
  | _, _ => false

/-- The error taxonomy of the spec; the source raises these as assertion
failures / runtime errors at the corresponding program points.
`nullDereference` stands for the JS `TypeError` raised when a nulled field
is dereferenced. -/
inductive NDError where
  | noStorage
  | incompleteStorage
  | shapeMismatch
  | invalidShape
  | invalidRank
  | uninitializedBackend
  | nullDereference
deriving DecidableEq, Repr

/-- `NDArrayData<T>`: the mutable record holding the storage union.  All
three fields are nullable in the source. `texture` is a handle into the
texture manager's store; `textureShapeRC` is the `[rows, columns]` layout. -/
structure DataRec where
  values : Option TypedArray
  texture : Option Nat
  textureShapeRC : Option (Nat × Nat)
deriving DecidableEq, Repr

/-- The abstract GPGPU context + texture manager pair: a store mapping
texture handles to uploaded host buffers, a fresh-handle counter, and a log
of `releaseTexture` calls (handle, rows, cols). -/
structure GPUState where
  texStore : List (Nat × List Int)
  nextId : Nat
  released : List (Nat × Nat × Nat)
deriving DecidableEq, Repr

/-- `TextureManager.acquireTexture`: hands out a fresh handle for a layout. -/
def acquireTexture (g : GPUState) (_rc : Nat × Nat) : Nat × GPUState :=
  (g.nextId, { g with nextId := g.nextId + 1 })

/-- `GPGPU.uploadMatrixToTexture`: synchronous copy-in; the store remembers
exactly the uploaded buffer. -/
def uploadMatrixToTexture (g : GPUState) (tex : Nat) (_rows _cols : Nat)
    (buf : List Int) : GPUState :=
  { g with texStore := (tex, buf) :: g.texStore }

/-- `GPGPU.downloadMatrixFromTexture`: synchronous copy-out; returns exactly
what was stored under the handle. -/
def downloadMatrixFromTexture (g : GPUState) (tex : Nat) (_rows _cols : Nat) :
    List Int :=
  (g.texStore.lookup tex).getD []

/-- `TextureManager.releaseTexture`: returns storage to the pool (logged). -/
def releaseTexture (g : GPUState) (tex : Nat) (rc : Nat × Nat) : GPUState :=
  { g with released := (tex, rc.1, rc.2) :: g.released }

/-- The world: the module-level `GPGPU`/`TEXTURE_MANAGER` globals (both
`null` until `initializeGPU`, modelled as one `Option`), plus the heap of
`NDArrayData` records that tensors reference. -/
structure World where
  gpu : Option GPUState
  heap : List DataRec
deriving DecidableEq, Repr

/-- Read the data record a tensor references (a nulled-out record if the
reference is dangling). -/
def World.recAt (w : World) (i : Nat) : DataRec :=
  w.heap.getD i ⟨none, none, none⟩

/-- Overwrite the data record at a heap index. -/
def World.setRec (w : World) (i : Nat) (d : DataRec) : World :=
  { w with heap := w.heap.set i d }

/-- Modelled from the spec: `util.sizeFromShape` is not under `src/`.
§4.1: "`size(shape)`: product of all dimensions; `0` only if any dimension
is `0`; shape `[]` (rank 0) yields size `1`". -/
def sizeFromShape (shape : List Nat) : Nat :=
  shape.foldl (· * ·) 1

/-- The zero-initialised `strides` array of length `dim - 1` with the seed
entry `strides[dim-2] = shape[dim-1]` already written (constructor line
`this.strides[dim - 2] = this.shape[dim - 1]`). -/
def stridesInit (shape : List Nat) : List Nat :=
  (List.replicate (shape.length - 1) 0).set (shape.length - 2)
    (shape.getD (shape.length - 1) 0)

/-- The constructor's backward fill loop
`for (let i = dim - 3; i >= 0; --i) strides[i] = strides[i+1] * shape[i+1]`;
the fuel argument is the count of indices still to fill, so the step with
fuel `i + 1` writes index `i`. -/
def stridesLoop (shape : List Nat) : List Nat → Nat → List Nat
  | st, 0 => st
  | st, i + 1 => stridesLoop shape (st.set i (st.getD (i + 1) 0 * shape.getD (i + 1) 0)) i

/-- The stride table computed by the `NDArray` constructor: empty for rank
below 2, otherwise the seeded array completed by the backward loop. -/
def computeStrides (shape : List Nat) : List Nat :=
  if shape.length < 2 then []
  else stridesLoop shape (stridesInit shape) (shape.length - 2)

/-- A tensor instance: shape (`null` after `dispose`), cached size and
strides, the heap reference to its `NDArrayData` record, its dtype, and the
`Array2D`-cached row stride (`stride0`, `0` for the other ranks). -/
structure NDArray where
  shape : Option (List Nat)
  size : Nat
  strides : List Nat
  stride0 : Nat
  dataRef : Nat
  dtype : DType
deriving DecidableEq, Repr

/-- The protected `NDArray` constructor (lines 78–113): asserts that values
or texture is present, that a texture comes with its layout, and that host
values have exactly `size` elements; then binds shape, size and strides. -/
def NDArray.construct (shape : List Nat) (dataRef : Nat) (dt : DType)
    (w : World) : Except NDError NDArray :=
  let d := w.recAt dataRef
  if d.values.isNone && d.texture.isNone then .error .noStorage
  else if d.texture.isSome && d.textureShapeRC.isNone then
    .error .incompleteStorage
  else
    let size := sizeFromShape shape
    match d.values with
    | some v =>
      if size = v.toList.length then
        .ok ⟨some shape, size, computeStrides shape, 0, dataRef, dt⟩
      else .error .shapeMismatch
    | none => .ok ⟨some shape, size, computeStrides shape, 0, dataRef, dt⟩

/-- The `Scalar` constructor's record fix-up: if a texture is present the
layout is forced to `[1, 1]`, mutating the shared data record. -/
def scalarFix (dataRef : Nat) (w : World) : World :=
  if (w.recAt dataRef).texture.isSome then
    w.setRec dataRef { w.recAt dataRef with textureShapeRC := some (1, 1) }
  else w

/-- The `Scalar` constructor: the layout fix-up above, then the base
constructor on the empty shape. -/
def Scalar.construct (dataRef : Nat) (dt : DType) (w : World) :
    Except NDError (NDArray × World) :=
  (NDArray.construct [] dataRef dt (scalarFix dataRef w)).map
    (fun nd => (nd, scalarFix dataRef w))

/-- The `Array1D` constructor: the bound shape is inferred from the host
buffer length when values are present, otherwise from the texture layout's
capacity; reading both as `null` raises a `TypeError`. -/
def Array1D.construct (dataRef : Nat) (dt : DType) (w : World) :
    Except NDError (NDArray × World) :=
  match (w.recAt dataRef).values with
  | some v =>
    (NDArray.construct [v.toList.length] dataRef dt w).map (fun nd => (nd, w))
  | none =>
    match (w.recAt dataRef).textureShapeRC with
    | some rc =>
      (NDArray.construct [sizeFromShape [rc.1, rc.2]] dataRef dt w).map
        (fun nd => (nd, w))
    | none => .error .nullDereference

/-- The `Array2D` constructor: asserts the shape has length 2
(`InvalidRankError` per the spec taxonomy), runs the base constructor, then
caches `stride0 = strides[0]`. -/
def Array2D.construct (shape : List Nat) (dataRef : Nat) (dt : DType)
    (w : World) : Except NDError (NDArray × World) :=
  if shape.length = 2 then
    (NDArray.construct shape dataRef dt w).map
      (fun nd => ({ nd with stride0 := nd.strides.getD 0 0 }, w))
  else .error .invalidRank

/-- `NDArray.make`: the factory dispatching on `shape.length` to the
rank-specialised constructors (0 → `Scalar`, 1 → `Array1D`, 2 → `Array2D`,
otherwise the generic `NDArray`). -/
def NDArray.make (shape : List Nat) (dataRef : Nat) (dt : DType) (w : World) :
    Except NDError (NDArray × World) :=
  match shape.length with
  | 0 => Scalar.construct dataRef dt w
  | 1 => Array1D.construct dataRef dt w
  | 2 => Array2D.construct shape dataRef dt w
  | _ => (NDArray.construct shape dataRef dt w).map (fun nd => (nd, w))

/-- Allocate a fresh `NDArrayData` record holding host values (the object
literal `{values}` passed to `make` by the factories) and build the tensor
over it. -/
def NDArray.makeNew (shape : List Nat) (vals : TypedArray) (dt : DType)
    (w : World) : Except NDError (NDArray × World) :=
  NDArray.make shape w.heap.length dt
    { w with heap := w.heap ++ [⟨some vals, none, none⟩] }

/-- `NDArray.zeros`: allocates the host buffer with `new Float32Array(size)`
regardless of the requested dtype tag. -/
def NDArray.zeros (shape : List Nat) (dt : DType) (w : World) :
    Except NDError (NDArray × World) :=
  NDArray.makeNew shape
    (.float32Arr (List.replicate (sizeFromShape shape) 0)) dt w

/-- Modelled from the spec: `util.inferFromImplicitShape` is not under
`src/`.  §4.3: "resolves at most one `-1`/implicit dimension in `newShape`
by inferring it from `size / product(other dims)`; fails with
`InvalidShapeError` if more than one dimension is implicit".  Negative
entries other than `-1` are likewise invalid shapes. -/
def inferFromImplicitShape (shape : List Int) (size : Nat) :
    Except NDError (List Nat) :=
  if 1 < shape.countP (· == -1) then .error .invalidShape
  else if shape.any (· < -1) then .error .invalidShape
  else
    let prodOther : Nat :=
      (shape.filter (fun d => d ≠ -1)).foldl (fun acc d => acc * d.toNat) 1
    .ok (shape.map (fun d => if d = -1 then size / prodOther else d.toNat))

/-- `NDArray.reshape` (lines 159–171): resolve the implicit dimension, then
return `this` unchanged when the resolved shape equals the current one
(`arraysEqual`, a `TypeError` on a disposed tensor's nulled shape), assert
equal element counts (`InvalidShapeError`), and otherwise rebuild over the
same data record — the storage is shared, not copied. -/
def NDArray.reshape (a : NDArray) (newShape : List Int) (w : World) :
    Except NDError (NDArray × World) :=
  match inferFromImplicitShape newShape a.size with
  | .error e => .error e
  | .ok ns =>
    match a.shape with
    | none => .error .nullDereference
    | some sh =>
      if sh = ns then .ok (a, w)
      else if a.size = sizeFromShape ns then NDArray.make ns a.dataRef a.dtype w
      else .error .invalidShape

/-- `disposeTexture` (lines 313–318): requires the GPU globals, releases the
texture back to the manager, and nulls both texture fields. -/
def NDArray.disposeTexture (a : NDArray) (w : World) : Except NDError World :=
  match w.gpu with
  | none => .error .uninitializedBackend
  | some g =>
    let d := w.recAt a.dataRef
    let g1 := releaseTexture g (d.texture.getD 0) (d.textureShapeRC.getD (0, 0))
    .ok { (w.setRec a.dataRef { d with texture := none, textureShapeRC := none })
            with gpu := some g1 }

/-- `getValues` (lines 245–254): host values are returned as-is when
present; otherwise the GPU must be initialised, the texture is downloaded
into a fresh `Float32Array` (a `TypeError` when the texture fields are
nulled), and the texture is released. -/
def NDArray.getValues (a : NDArray) (w : World) :
    Except NDError (TypedArray × World) :=
  let d := w.recAt a.dataRef
  match d.values with
  | some v => .ok (v, w)
  | none =>
    match w.gpu with
    | none => .error .uninitializedBackend
    | some g =>
      match d.texture, d.textureShapeRC with
      | some tex, some rc =>
        let buf := downloadMatrixFromTexture g tex rc.1 rc.2
        let w1 := { (w.setRec a.dataRef { d with values := some (.float32Arr buf) })
                      with gpu := some g }
        match NDArray.disposeTexture a w1 with
        | .error e => .error e
        | .ok w2 => .ok (.float32Arr buf, w2)
      | _, _ => .error .nullDereference

/-- `uploadToGPU` (lines 277–289): requires the GPU globals, negotiates a
2D layout for the logical shape (`layoutFn` abstracts
`webgl_util.getTextureShapeFromLogicalShape`), acquires a texture, copies
the host buffer in, and clears the host reference. -/
def NDArray.uploadToGPU (layoutFn : List Nat → Option (Nat × Nat) → Nat × Nat)
    (a : NDArray) (preferredTexShape : Option (Nat × Nat)) (w : World) :
    Except NDError World :=
  match w.gpu with
  | none => .error .uninitializedBackend
  | some g =>
    let d := w.recAt a.dataRef
    let rc := layoutFn (a.shape.getD []) preferredTexShape
    let (tex, g1) := acquireTexture g rc
    let buf := match d.values with
      | some v => v.toList
      | none => []
    let g2 := uploadMatrixToTexture g1 tex rc.1 rc.2 buf
    .ok { (w.setRec a.dataRef
            ⟨none, some tex, some rc⟩) with gpu := some g2 }

/-- `getTexture` (lines 291–296): uploads first when no texture is resident,
then returns the texture handle. -/
def NDArray.getTexture (layoutFn : List Nat → Option (Nat × Nat) → Nat × Nat)
    (a : NDArray) (preferredShapeRC : Option (Nat × Nat)) (w : World) :
    Except NDError (Option Nat × World) :=
  match (w.recAt a.dataRef).texture with
  | some tex => .ok (some tex, w)
  | none =>
    match NDArray.uploadToGPU layoutFn a preferredShapeRC w with
    | .error e => .error e
    | .ok w1 => .ok ((w1.recAt a.dataRef).texture, w1)

/-- `dispose` (lines 305–311): nulls the host values and the shape, and
releases the texture when one is held. -/
def NDArray.dispose (a : NDArray) (w : World) :
    Except NDError (NDArray × World) :=
  let d := w.recAt a.dataRef
  let w1 := w.setRec a.dataRef { d with values := none }
  let a1 := { a with shape := none }
  if d.texture.isSome then
    (NDArray.disposeTexture a1 w1).map (fun w2 => (a1, w2))
  else .ok (a1, w1)

/-- The flat offset `locs[last] + Σ strides[i]·locs[i]` computed by the
generic `get`/`set`/`locToIndex` loops. -/
def locToIndexRaw (strides locs : List Nat) : Nat :=
  (List.range (locs.length - 1)).foldl
    (fun acc i => acc + strides.getD i 0 * locs.getD i 0)
    (locs.getD (locs.length - 1) 0)

/-- Generic `get`: flat offset through the stride table, then a read of the
materialised host values (forcing a download when GPU-resident). -/
def NDArray.get (a : NDArray) (locs : List Nat) (w : World) :
    Except NDError (Int × World) :=
  match NDArray.getValues a w with
  | .error e => .error e
  | .ok (v, w1) => .ok (v.toList.getD (locToIndexRaw a.strides locs) 0, w1)

/-- `Array2D.get`: fast-path addressing `values[stride0 * i + j]`. -/
def Array2D.get (a : NDArray) (i j : Nat) (w : World) :
    Except NDError (Int × World) :=
  match NDArray.getValues a w with
  | .error e => .error e
  | .ok (v, w1) => .ok (v.toList.getD (a.stride0 * i + j) 0, w1)

/-- `Array2D.set`: materialises host values, then writes
`values[stride0 * i + j] = value` in place (mutating the shared record). -/
def Array2D.set (a : NDArray) (value : Int) (i j : Nat) (w : World) :
    Except NDError World :=
  match NDArray.getValues a w with
  | .error e => .error e
  | .ok (v, w1) =>
    let d := w1.recAt a.dataRef
    .ok (w1.setRec a.dataRef
      { d with values := some (v.setIdx (a.stride0 * i + j) value) })

/-- `equals` (lines 324–327): dtype equality, then shape equality
(`arraysEqual` raises a `TypeError` on a nulled shape), then element-wise
equality of both materialised host buffers. -/
def NDArray.equals (a b : NDArray) (w : World) :
    Except NDError (Bool × World) :=
  if a.dtype = b.dtype then
    match a.shape, b.shape with
    | some s1, some s2 =>
      if s1 = s2 then
        match NDArray.getValues a w with
        | .error e => .error e
        | .ok (va, w1) =>
          match NDArray.getValues b w1 with
          | .error e => .error e
          | .ok (vb, w2) => .ok (va.toList = vb.toList, w2)
      else .ok (false, w)
    | _, _ => .error .nullDereference
  else .ok (false, w)

/-- `NDArray.like` (lines 130–134): materialise the other tensor's values,
copy them into a `new Float32Array`, and build a fresh tensor of the same
shape and dtype over the copy. -/
def NDArray.like (a : NDArray) (w : World) : Except NDError (NDArray × World) :=
  match NDArray.getValues a w with
  | .error e => .error e
  | .ok (v, w1) =>
    match a.shape with
    | none => .error .nullDereference
    | some sh => NDArray.makeNew sh (.float32Arr v.toList) a.dtype w1

/-! ## Helper lemmas about list indexing and the heap -/

instance {ε α : Type} [DecidableEq ε] [DecidableEq α] : DecidableEq (Except ε α)
  | .error e, .error f =>
    if h : e = f then .isTrue (by rw [h]) else .isFalse (by intro hc; cases hc; exact h rfl)
  | .error _, .ok _ => .isFalse (by intro hc; cases hc)
  | .ok _, .error _ => .isFalse (by intro hc; cases hc)
  | .ok a, .ok b =>
    if h : a = b then .isTrue (by rw [h]) else .isFalse (by intro hc; cases hc; exact h rfl)

theorem getD_set_self {α : Type} (l : List α) (i : Nat) (a d : α)
    (h : i < l.length) : (l.set i a).getD i d = a := by
  induction l generalizing i with
  | nil => simp at h
  | cons x xs ih =>
    cases i with
    | zero => rfl
    | succ n =>
      simpa using ih n (by simpa using h)

theorem getD_set_ne {α : Type} (l : List α) (i j : Nat) (a d : α)
    (h : i ≠ j) : (l.set i a).getD j d = l.getD j d := by
  induction l generalizing i j with
  | nil => simp [List.set]
  | cons x xs ih =>
    cases i with
    | zero =>
      cases j with
      | zero => exact absurd rfl h
      | succ m => rfl
    | succ n =>
      cases j with
      | zero => rfl
      | succ m =>
        simpa using ih n m (fun hc => h (by omega))

theorem getD_append_length {α : Type} (l : List α) (a d : α) :
    (l ++ [a]).getD l.length d = a := by
  induction l with
  | nil => rfl
  | cons x xs ih => simp [ih]

theorem getD_length_le {α : Type} (l : List α) (i : Nat) (d : α)
    (h : l.length ≤ i) : l.getD i d = d := by
  induction l generalizing i with
  | nil => cases i <;> rfl
  | cons x xs ih =>
    cases i with
    | zero => simp at h
    | succ n => simpa using ih n (by simpa using h)

theorem recAt_setRec_self (w : World) (i : Nat) (d : DataRec)
    (h : i < w.heap.length) : (w.setRec i d).recAt i = d := by
  simp only [World.setRec, World.recAt]
  exact getD_set_self _ _ _ _ h

theorem recAt_of_length_le (w : World) (i : Nat)
    (h : w.heap.length ≤ i) : w.recAt i = ⟨none, none, none⟩ := by
  simp only [World.recAt]
  exact getD_length_le _ _ _ h

/-! ## Storage-form predicates and well-formedness -/

/-- At least one storage form (host values or texture) is present. -/
def atLeastOneForm (d : DataRec) : Bool :=
  d.values.isSome || d.texture.isSome

/-- Exactly one storage form is present: some form exists and the two forms
are never simultaneously readable. -/
def exclusiveForm (d : DataRec) : Bool :=
  (d.values.isSome || d.texture.isSome) && !(d.values.isSome && d.texture.isSome)

/-- The data record passes the constructor's sanity checks for a tensor of
`size` elements: some storage form, a layout whenever a texture is held, and
host values of exactly `size` elements when present. -/
def recWFB (d : DataRec) (size : Nat) : Bool :=
  (d.values.isSome || d.texture.isSome) &&
  (!d.texture.isSome || d.textureShapeRC.isSome) &&
  (match d.values with
   | some v => v.toList.length == size
   | none => true)

/-- A live, consistently constructed tensor: a bound shape whose product is
the cached size, an in-bounds data reference, and a well-formed record. -/
def NDArray.wfB (a : NDArray) (w : World) : Bool :=
  a.shape.isSome && (a.size == sizeFromShape (a.shape.getD [])) &&
  decide (a.dataRef < w.heap.length) && recWFB (w.recAt a.dataRef) a.size

/-! ## Inversion of the generic constructor -/

theorem construct_eq_ok_iff (shape : List Nat) (ref : Nat) (dt : DType)
    (w : World) (nd : NDArray) :
    NDArray.construct shape ref dt w = .ok nd ↔
      atLeastOneForm (w.recAt ref) = true ∧
      (!(w.recAt ref).texture.isSome || (w.recAt ref).textureShapeRC.isSome) = true ∧
      (∀ v, (w.recAt ref).values = some v → sizeFromShape shape = v.toList.length) ∧
      nd = ⟨some shape, sizeFromShape shape, computeStrides shape, 0, ref, dt⟩ := by
  unfold NDArray.construct atLeastOneForm
  rcases hv : (w.recAt ref).values with _ | v <;>
    rcases ht : (w.recAt ref).texture with _ | tex <;>
      rcases hrc : (w.recAt ref).textureShapeRC with _ | rc <;>
        simp [hv, ht, hrc] <;>
        constructor <;>
        · intro h
          first
            | (rcases h with ⟨h1, h2⟩; simp [h1, h2])
            | (split at h <;> simp_all)
            | simp_all

/-! ## Inversion and success lemmas for the factory -/

theorem except_map_eq_ok {ε α β : Type} (f : α → β) (e : Except ε α) (b : β) :
    e.map f = .ok b ↔ ∃ a, e = .ok a ∧ f a = b := by
  cases e <;> simp [Except.map]

theorem sizeFromShape_singleton (n : Nat) : sizeFromShape [n] = n := by
  simp [sizeFromShape]

theorem recWFB_spec (d : DataRec) (size : Nat) (h : recWFB d size = true) :
    (d.values.isSome || d.texture.isSome) = true ∧
    (!d.texture.isSome || d.textureShapeRC.isSome) = true ∧
    (∀ v, d.values = some v → v.toList.length = size) := by
  unfold recWFB at h
  rw [Bool.and_eq_true, Bool.and_eq_true] at h
  obtain ⟨⟨h1, h2⟩, h3⟩ := h
  refine ⟨h1, h2, ?_⟩
  intro v hv
  rw [hv] at h3
  simpa using h3

theorem construct_ok_exists (shape : List Nat) (ref : Nat) (dt : DType)
    (w : World)
    (h1 : atLeastOneForm (w.recAt ref) = true)
    (h2 : (!(w.recAt ref).texture.isSome || (w.recAt ref).textureShapeRC.isSome) = true)
    (h3 : ∀ v, (w.recAt ref).values = some v → sizeFromShape shape = v.toList.length) :
    ∃ nd, NDArray.construct shape ref dt w = .ok nd :=
  ⟨_, (construct_eq_ok_iff shape ref dt w _).mpr ⟨h1, h2, h3, rfl⟩⟩

theorem scalarFix_values (ref : Nat) (w : World) :
    ((scalarFix ref w).recAt ref).values = (w.recAt ref).values := by
  unfold scalarFix
  split
  · rename_i ht
    by_cases href : ref < w.heap.length
    · rw [recAt_setRec_self _ _ _ href]
    · rw [recAt_of_length_le w ref (by omega)] at ht
      simp at ht
  · rfl

theorem scalarFix_texture (ref : Nat) (w : World) :
    ((scalarFix ref w).recAt ref).texture = (w.recAt ref).texture := by
  unfold scalarFix
  split
  · rename_i ht
    by_cases href : ref < w.heap.length
    · rw [recAt_setRec_self _ _ _ href]
    · rw [recAt_of_length_le w ref (by omega)] at ht
      simp at ht
  · rfl

theorem scalarFix_rc (ref : Nat) (w : World)
    (h : (w.recAt ref).texture.isSome = true) :
    ((scalarFix ref w).recAt ref).textureShapeRC = some (1, 1) := by
  unfold scalarFix
  rw [if_pos h]
  by_cases href : ref < w.heap.length
  · rw [recAt_setRec_self _ _ _ href]
  · rw [recAt_of_length_le w ref (by omega)] at h
    simp at h

theorem scalarFix_gpu (ref : Nat) (w : World) :
    (scalarFix ref w).gpu = w.gpu := by
  unfold scalarFix
  split <;> rfl

theorem scalarFix_heapLength (ref : Nat) (w : World) :
    (scalarFix ref w).heap.length = w.heap.length := by
  unfold scalarFix
  split
  · simp [World.setRec, List.length_set]
  · rfl

theorem scalarFix_of_texture_none (ref : Nat) (w : World)
    (h : (w.recAt ref).texture.isSome = false) :
    scalarFix ref w = w := by
  unfold scalarFix
  rw [if_neg]
  simp [h]

/-- Inversion for `NDArray.make`: a successfully built tensor references the
given record, keeps the dtype, has a bound shape; the record's values and
texture fields are untouched by construction (only a scalar's layout may be
fixed up), and when host values of the right length were present the bound
shape is the requested one and the world is unchanged unless a texture was
present. -/
theorem make_inv (shape : List Nat) (ref : Nat) (dt : DType) (w : World)
    (t : NDArray) (w' : World) (h : NDArray.make shape ref dt w = .ok (t, w')) :
    t.dataRef = ref ∧ t.dtype = dt ∧ t.shape.isSome = true ∧
    atLeastOneForm (w'.recAt ref) = true ∧
    (w'.recAt ref).values = (w.recAt ref).values ∧
    (w'.recAt ref).texture = (w.recAt ref).texture ∧
    w'.gpu = w.gpu ∧ w'.heap.length = w.heap.length ∧
    ((w.recAt ref).texture.isSome = false → w' = w) ∧
    (∀ v, (w.recAt ref).values = some v → sizeFromShape shape = v.toList.length →
      t.shape = some shape) := by
  unfold NDArray.make at h
  split at h
  · -- Scalar branch: shape.length = 0
    rename_i hlen0
    have hsh : shape = [] := List.length_eq_zero.mp hlen0
    subst hsh
    unfold Scalar.construct at h
    rw [except_map_eq_ok] at h
    obtain ⟨nd, hok, hf⟩ := h
    obtain ⟨h1, _, _, hnd⟩ := (construct_eq_ok_iff _ _ _ _ _).mp hok
    injection hf with hft hfw
    subst hft
    subst hfw
    refine ⟨by rw [hnd], by rw [hnd], by rw [hnd]; rfl, h1,
      scalarFix_values ref w, scalarFix_texture ref w, scalarFix_gpu ref w,
      scalarFix_heapLength ref w, scalarFix_of_texture_none ref w,
      fun v _ _ => by rw [hnd]⟩
  · -- Array1D branch: shape.length = 1
    rename_i hlen1
    obtain ⟨n, hsh⟩ := List.length_eq_one.mp hlen1
    subst hsh
    unfold Array1D.construct at h
    split at h
    · -- host values present
      rename_i v hv
      rw [except_map_eq_ok] at h
      obtain ⟨nd, hok, hf⟩ := h
      obtain ⟨h1, _, _, hnd⟩ := (construct_eq_ok_iff _ _ _ _ _).mp hok
      injection hf with hft hfw
      subst hft
      subst hfw
      refine ⟨by rw [hnd], by rw [hnd], by rw [hnd]; rfl, h1, rfl, rfl, rfl,
        rfl, fun _ => rfl, ?_⟩
      intro v2 hv2 hsize
      rw [hv] at hv2
      injection hv2 with hv2e
      subst hv2e
      rw [sizeFromShape_singleton] at hsize
      rw [hnd, hsize]
    · -- texture-resident: shape from the layout capacity
      rename_i hvnone
      split at h
      · rename_i rc hrc
        rw [except_map_eq_ok] at h
        obtain ⟨nd, hok, hf⟩ := h
        obtain ⟨h1, _, _, hnd⟩ := (construct_eq_ok_iff _ _ _ _ _).mp hok
        injection hf with hft hfw
        subst hft
        subst hfw
        refine ⟨by rw [hnd], by rw [hnd], by rw [hnd]; rfl, h1, rfl, rfl, rfl,
          rfl, fun _ => rfl, ?_⟩
        intro v2 hv2 _
        rw [hvnone] at hv2
        cases hv2
      · cases h
  · -- Array2D branch: shape.length = 2
    rename_i hlen2
    unfold Array2D.construct at h
    rw [if_pos hlen2, except_map_eq_ok] at h
    obtain ⟨nd, hok, hf⟩ := h
    obtain ⟨h1, _, _, hnd⟩ := (construct_eq_ok_iff _ _ _ _ _).mp hok
    injection hf with hft hfw
    subst hft
    subst hfw
    refine ⟨by rw [hnd], by rw [hnd], by rw [hnd]; rfl, h1, rfl, rfl, rfl,
      rfl, fun _ => rfl, fun v _ _ => by rw [hnd]⟩
  · -- generic branch
    rw [except_map_eq_ok] at h
    obtain ⟨nd, hok, hf⟩ := h
    obtain ⟨h1, _, _, hnd⟩ := (construct_eq_ok_iff _ _ _ _ _).mp hok
    injection hf with hft hfw
    subst hft
    subst hfw
    exact ⟨by rw [hnd], by rw [hnd], by rw [hnd]; rfl, h1, rfl, rfl, rfl,
      rfl, fun _ => rfl, fun v _ _ => by rw [hnd]⟩

/-- Success of `NDArray.make` over any record passing the constructor's
checks for the requested element count. -/
theorem make_ok_of_recWFB (shape : List Nat) (ref : Nat) (dt : DType)
    (w : World)
    (hrec : recWFB (w.recAt ref) (sizeFromShape shape) = true) :
    ∃ t w', NDArray.make shape ref dt w = .ok (t, w') := by
  obtain ⟨hr1, hr2, hr3⟩ := recWFB_spec _ _ hrec
  unfold NDArray.make
  split
  · -- Scalar
    rename_i hlen0
    have hsh : shape = [] := List.length_eq_zero.mp hlen0
    unfold Scalar.construct
    have hc : ∃ nd, NDArray.construct [] ref dt (scalarFix ref w) = .ok nd := by
      apply construct_ok_exists
      · unfold atLeastOneForm
        rw [scalarFix_values, scalarFix_texture]
        exact hr1
      · rcases ht : (w.recAt ref).texture.isSome with _ | _
        · rw [scalarFix_texture, ht]
          simp
        · rw [scalarFix_texture, ht, scalarFix_rc ref w ht]
          simp
      · intro v hv
        rw [scalarFix_values] at hv
        have := hr3 v hv
        rw [hsh] at this
        rw [this]
    obtain ⟨nd, hnd⟩ := hc
    exact ⟨nd, scalarFix ref w, by rw [hnd]; rfl⟩
  · -- Array1D
    rename_i hlen1
    unfold Array1D.construct
    rcases hv : (w.recAt ref).values with _ | v
    · rcases ht : (w.recAt ref).textureShapeRC with _ | rc
      · exfalso
        rw [hv] at hr1
        simp at hr1
        rw [hr1] at hr2
        rw [ht] at hr2
        simp at hr2
      · have hc := construct_ok_exists [sizeFromShape [rc.1, rc.2]] ref dt w
          (by unfold atLeastOneForm; exact hr1) hr2
          (fun v2 hv2 => by rw [hv] at hv2; cases hv2)
        obtain ⟨nd, hnd⟩ := hc
        refine ⟨nd, w, ?_⟩
        simp only [hv, ht, hnd]
        rfl
    · have hc := construct_ok_exists [v.toList.length] ref dt w
        (by unfold atLeastOneForm; exact hr1) hr2 ?_
      · obtain ⟨nd, hnd⟩ := hc
        refine ⟨nd, w, ?_⟩
        simp only [hv, hnd]
        rfl
      · intro v2 hv2
        rw [hv] at hv2
        injection hv2 with hv2e
        subst hv2e
        rw [sizeFromShape_singleton]
  · -- Array2D
    rename_i hlen2
    unfold Array2D.construct
    rw [if_pos hlen2]
    have hc := construct_ok_exists shape ref dt w
      (by unfold atLeastOneForm; exact hr1) hr2
      (fun v hv => (hr3 v hv).symm)
    obtain ⟨nd, hnd⟩ := hc
    exact ⟨_, w, by rw [hnd]; rfl⟩
  · -- generic
    have hc := construct_ok_exists shape ref dt w
      (by unfold atLeastOneForm; exact hr1) hr2
      (fun v hv => (hr3 v hv).symm)
    obtain ⟨nd, hnd⟩ := hc
    exact ⟨nd, w, by rw [hnd]; rfl⟩

/-! ## The migration state machine: upload and download steps -/

theorem recAt_gpuUpdate (w : World) (g : Option GPUState) (i : Nat) :
    ({ w with gpu := g } : World).recAt i = w.recAt i := rfl

theorem setRec_heapLength (w : World) (i : Nat) (d : DataRec) :
    (w.setRec i d).heap.length = w.heap.length := by
  simp [World.setRec, List.length_set]

theorem disposeTexture_eq (a : NDArray) (w : World) (g : GPUState)
    (hg : w.gpu = some g) (d : DataRec) (hrec : w.recAt a.dataRef = d) :
    NDArray.disposeTexture a w = .ok
      { (w.setRec a.dataRef { d with texture := none, textureShapeRC := none })
        with gpu := some (releaseTexture g (d.texture.getD 0)
          (d.textureShapeRC.getD (0, 0))) } := by
  unfold NDArray.disposeTexture
  rw [hg, hrec]

theorem uploadToGPU_eq (layoutFn : List Nat → Option (Nat × Nat) → Nat × Nat)
    (a : NDArray) (pref : Option (Nat × Nat)) (w : World) (g : GPUState)
    (hg : w.gpu = some g) :
    NDArray.uploadToGPU layoutFn a pref w = .ok
      { (w.setRec a.dataRef
          ⟨none, some g.nextId, some (layoutFn (a.shape.getD []) pref)⟩)
        with gpu := some (uploadMatrixToTexture { g with nextId := g.nextId + 1 }
          g.nextId (layoutFn (a.shape.getD []) pref).1
          (layoutFn (a.shape.getD []) pref).2
          (match (w.recAt a.dataRef).values with
           | some v => v.toList
           | none => [])) } := by
  unfold NDArray.uploadToGPU
  rw [hg]
  rfl

theorem getTexture_eq_of_upload (layoutFn : List Nat → Option (Nat × Nat) → Nat × Nat)
    (a : NDArray) (pref : Option (Nat × Nat)) (w w1 : World)
    (ht : (w.recAt a.dataRef).texture = none)
    (hup : NDArray.uploadToGPU layoutFn a pref w = .ok w1) :
    NDArray.getTexture layoutFn a pref w = .ok ((w1.recAt a.dataRef).texture, w1) := by
  unfold NDArray.getTexture
  rw [ht, hup]

/-- The effect of `getTexture` on a texture-free tensor: the acquired handle
is the manager's next id, the record now holds only the texture form, and
the store remembers the uploaded host buffer. -/
theorem getTexture_upload (layoutFn : List Nat → Option (Nat × Nat) → Nat × Nat)
    (a : NDArray) (pref : Option (Nat × Nat)) (w : World) (g : GPUState)
    (hg : w.gpu = some g) (href : a.dataRef < w.heap.length)
    (ht : (w.recAt a.dataRef).texture = none) :
    ∃ w1, NDArray.getTexture layoutFn a pref w = .ok (some g.nextId, w1) ∧
      w1.recAt a.dataRef =
        ⟨none, some g.nextId, some (layoutFn (a.shape.getD []) pref)⟩ ∧
      w1.gpu = some (uploadMatrixToTexture { g with nextId := g.nextId + 1 }
        g.nextId (layoutFn (a.shape.getD []) pref).1
        (layoutFn (a.shape.getD []) pref).2
        (match (w.recAt a.dataRef).values with
         | some v => v.toList
         | none => [])) ∧
      w1.heap.length = w.heap.length := by
  have hup := uploadToGPU_eq layoutFn a pref w g hg
  have h1 := getTexture_eq_of_upload layoutFn a pref w _ ht hup
  have hrec1 : ({ (w.setRec a.dataRef
        ⟨none, some g.nextId, some (layoutFn (a.shape.getD []) pref)⟩)
        with gpu := some (uploadMatrixToTexture { g with nextId := g.nextId + 1 }
          g.nextId (layoutFn (a.shape.getD []) pref).1
          (layoutFn (a.shape.getD []) pref).2
          (match (w.recAt a.dataRef).values with
           | some v => v.toList
           | none => [])) } : World).recAt a.dataRef =
      ⟨none, some g.nextId, some (layoutFn (a.shape.getD []) pref)⟩ := by
    rw [recAt_gpuUpdate]
    exact recAt_setRec_self _ _ _ href
  refine ⟨_, ?_, hrec1, rfl, ?_⟩
  · rw [h1, hrec1]
  · exact setRec_heapLength _ _ _

/-- The effect of `getValues` on a texture-resident tensor: the downloaded
buffer is exactly what the store holds, the record returns to host-only
form, and the texture is released. -/
theorem getValues_download (a : NDArray) (w : World) (g : GPUState)
    (tex : Nat) (rc : Nat × Nat)
    (hg : w.gpu = some g) (href : a.dataRef < w.heap.length)
    (hrec : w.recAt a.dataRef = ⟨none, some tex, some rc⟩) :
    ∃ w2, NDArray.getValues a w =
        .ok (.float32Arr (downloadMatrixFromTexture g tex rc.1 rc.2), w2) ∧
      w2.recAt a.dataRef =
        ⟨some (.float32Arr (downloadMatrixFromTexture g tex rc.1 rc.2)),
          none, none⟩ ∧
      w2.gpu = some (releaseTexture g tex rc) ∧
      w2.heap.length = w.heap.length := by
  have hstep : NDArray.getValues a w =
      match NDArray.disposeTexture a
        { (w.setRec a.dataRef
            ⟨some (.float32Arr (downloadMatrixFromTexture g tex rc.1 rc.2)),
              some tex, some rc⟩) with gpu := some g } with
      | .error e => .error e
      | .ok w2 =>
        .ok (.float32Arr (downloadMatrixFromTexture g tex rc.1 rc.2), w2) := by
    unfold NDArray.getValues
    rw [hrec, hg]
  have hd1 : ({ (w.setRec a.dataRef
      ⟨some (.float32Arr (downloadMatrixFromTexture g tex rc.1 rc.2)),
        some tex, some rc⟩) with gpu := some g } : World).recAt a.dataRef =
      ⟨some (.float32Arr (downloadMatrixFromTexture g tex rc.1 rc.2)),
        some tex, some rc⟩ := by
    rw [recAt_gpuUpdate]
    exact recAt_setRec_self _ _ _ href
  have hdisp := disposeTexture_eq a _ g rfl _ hd1
  have hlen1 : a.dataRef <
      ({ (w.setRec a.dataRef
          ⟨some (.float32Arr (downloadMatrixFromTexture g tex rc.1 rc.2)),
            some tex, some rc⟩) with gpu := some g } : World).heap.length := by
    rw [recAt_gpuUpdate] at hd1
    calc a.dataRef < w.heap.length := href
      _ = _ := (setRec_heapLength _ _ _).symm
  have hrec2 : ({ ({ (w.setRec a.dataRef
        ⟨some (.float32Arr (downloadMatrixFromTexture g tex rc.1 rc.2)),
          some tex, some rc⟩) with gpu := some g } : World).setRec a.dataRef
        ⟨some (.float32Arr (downloadMatrixFromTexture g tex rc.1 rc.2)),
          none, none⟩
      with gpu := some (releaseTexture g tex rc) } : World).recAt a.dataRef =
      ⟨some (.float32Arr (downloadMatrixFromTexture g tex rc.1 rc.2)),
        none, none⟩ := by
    rw [recAt_gpuUpdate]
    exact recAt_setRec_self _ _ _ hlen1
  refine ⟨_, ?_, hrec2, rfl, ?_⟩
  · rw [hstep, hdisp]
    rfl
  · exact (setRec_heapLength _ _ _).trans (setRec_heapLength _ _ _)

theorem download_upload (g : GPUState) (tex r1 c1 r2 c2 : Nat) (buf : List Int) :
    downloadMatrixFromTexture (uploadMatrixToTexture g tex r1 c1 buf) tex r2 c2
      = buf := by
  simp [downloadMatrixFromTexture, uploadMatrixToTexture, List.lookup]

/-! ## Claim C1: the upload/download round-trip is lossless -/

/-- C1: for a tensor holding host values, uploading (`getTexture`: acquire a
texture, copy the host buffer in, clear the host reference) and then
downloading (`getValues`: copy out, release the texture) yields a host
buffer element-wise equal to the original values — the buffer-manager model
returns from `downloadMatrixFromTexture` exactly what
`uploadMatrixToTexture` stored. -/
theorem c1_roundtrip (layoutFn : List Nat → Option (Nat × Nat) → Nat × Nat)
    (a : NDArray) (w : World) (g : GPUState) (ta : TypedArray)
    (pref : Option (Nat × Nat))
    (hg : w.gpu = some g) (href : a.dataRef < w.heap.length)
    (hrec : w.recAt a.dataRef = ⟨some ta, none, none⟩) :
    ∃ tex w1 w2,
      NDArray.getTexture layoutFn a pref w = .ok (some tex, w1) ∧
      NDArray.getValues a w1 = .ok (.float32Arr ta.toList, w2) ∧
      (w2.recAt a.dataRef).values = some (.float32Arr ta.toList) ∧
      (w2.recAt a.dataRef).texture = none := by
  obtain ⟨w1, hgt, hrec1, hgpu1, hlen1⟩ :=
    getTexture_upload layoutFn a pref w g hg href (by rw [hrec])
  obtain ⟨w2, hgv, hrec2, _, _⟩ :=
    getValues_download a w1 _ g.nextId (layoutFn (a.shape.getD []) pref)
      hgpu1 (by rw [hlen1]; exact href) hrec1
  have hbuf : (match (w.recAt a.dataRef).values with
      | some v => v.toList
      | none => ([] : List Int)) = ta.toList := by
    rw [hrec]
  rw [download_upload, hbuf] at hgv hrec2
  exact ⟨g.nextId, w1, w2, hgt, hgv, by rw [hrec2], by rw [hrec2]⟩

/-- Witness for C1: a `(4)` tensor holding `[7,8,9,10]`, a fresh manager,
and the row-layout negotiator round-trips to the same four values. -/
theorem c1_roundtrip_witness :
    ∃ tex w1 w2,
      NDArray.getTexture (fun sh _ => (1, sizeFromShape sh))
          (⟨some [4], 4, [], 0, 0, DType.float32⟩ : NDArray) none
          ⟨some ⟨[], 0, []⟩, [⟨some (.float32Arr [7,8,9,10]), none, none⟩]⟩
        = .ok (some tex, w1) ∧
      NDArray.getValues (⟨some [4], 4, [], 0, 0, DType.float32⟩ : NDArray) w1
        = .ok (.float32Arr [7,8,9,10], w2) ∧
      (w2.recAt 0).values = some (.float32Arr [7,8,9,10]) ∧
      (w2.recAt 0).texture = none :=
  c1_roundtrip (fun sh _ => (1, sizeFromShape sh))
    ⟨some [4], 4, [], 0, 0, DType.float32⟩
    ⟨some ⟨[], 0, []⟩, [⟨some (.float32Arr [7,8,9,10]), none, none⟩]⟩
    ⟨[], 0, []⟩ (.float32Arr [7,8,9,10]) none rfl (by decide) rfl

/-! ## Claim C2: the storage-form invariant -/

/-- C2 (amended): construction guarantees that at least one storage form is
present; and when exactly one form is present (the exclusive invariant),
that exclusivity is preserved by every completed upload (`getTexture` nulls
the host values after copying in) and download (`getValues` releases the
texture and nulls the texture fields after copying out).  Construction
alone does NOT guarantee exclusivity: see the counterexample. -/
theorem c2_storage_forms (layoutFn : List Nat → Option (Nat × Nat) → Nat × Nat) :
    (∀ shape ref dt w t w1, NDArray.make shape ref dt w = .ok (t, w1) →
      atLeastOneForm (w1.recAt t.dataRef) = true) ∧
    (∀ (a : NDArray) pref w tex w1,
      exclusiveForm (w.recAt a.dataRef) = true →
      a.dataRef < w.heap.length →
      NDArray.getTexture layoutFn a pref w = .ok (tex, w1) →
      exclusiveForm (w1.recAt a.dataRef) = true ∧
      (w1.recAt a.dataRef).texture.isSome = true) ∧
    (∀ (a : NDArray) w v w1,
      exclusiveForm (w.recAt a.dataRef) = true →
      a.dataRef < w.heap.length →
      NDArray.getValues a w = .ok (v, w1) →
      exclusiveForm (w1.recAt a.dataRef) = true ∧
      (w1.recAt a.dataRef).values.isSome = true) := by
  refine ⟨?_, ?_, ?_⟩
  · intro shape ref dt w t w1 h
    obtain ⟨hdr, _, _, h4, _⟩ := make_inv shape ref dt w t w1 h
    rw [hdr]
    exact h4
  · intro a pref w tex w1 hexcl href hok
    rcases ht : (w.recAt a.dataRef).texture with _ | tx
    · rcases hg : w.gpu with _ | g
      · exfalso
        unfold NDArray.getTexture NDArray.uploadToGPU at hok
        rw [ht, hg] at hok
        cases hok
      · obtain ⟨w1', hgt, hrec1, _, _⟩ :=
          getTexture_upload layoutFn a pref w g hg href ht
        rw [hgt] at hok
        injection hok with h1
        injection h1 with _ h2
        subst h2
        rw [hrec1]
        exact ⟨rfl, rfl⟩
    · unfold NDArray.getTexture at hok
      rw [ht] at hok
      injection hok with h1
      injection h1 with _ h2
      subst h2
      exact ⟨hexcl, by simp [ht]⟩
  · intro a w v w1 hexcl href hok
    rcases hv : (w.recAt a.dataRef).values with _ | v0
    · have htx : (w.recAt a.dataRef).texture.isSome = true := by
        unfold exclusiveForm at hexcl
        rw [hv] at hexcl
        simpa using hexcl
      rcases htex : (w.recAt a.dataRef).texture with _ | tx
      · rw [htex] at htx
        simp at htx
      · rcases hg : w.gpu with _ | g
        · exfalso
          simp only [NDArray.getValues, hv, hg] at hok
          cases hok
        · rcases hrc : (w.recAt a.dataRef).textureShapeRC with _ | rc
          · exfalso
            simp only [NDArray.getValues, hv, hg, htex, hrc] at hok
            cases hok
          · have hrec : w.recAt a.dataRef = ⟨none, some tx, some rc⟩ := by
              rw [← hv, ← htex, ← hrc]
            obtain ⟨w2, hgv, hrec2, _, _⟩ :=
              getValues_download a w g tx rc hg href hrec
            rw [hgv] at hok
            injection hok with h1
            injection h1 with _ h2
            subst h2
            rw [hrec2]
            exact ⟨rfl, rfl⟩
    · simp only [NDArray.getValues, hv] at hok
      injection hok with h1
      injection h1 with _ h2
      subst h2
      unfold exclusiveForm at hexcl ⊢
      rw [hv] at hexcl ⊢
      exact ⟨hexcl, by rfl⟩

/-- Counterexample to C2 as stated: `make` accepts a data record holding
BOTH storage forms; after that construction both forms are present and both
reads (`getValues` and `getTexture`) succeed, so the two forms are
simultaneously valid. -/
theorem c2_counterexample :
    ((NDArray.make [1] 0 DType.float32
        ⟨none, [⟨some (.float32Arr [0]), some 0, some (1, 1)⟩]⟩).map
      (fun p => (exclusiveForm (p.2.recAt p.1.dataRef),
        (NDArray.getValues p.1 p.2).isOk,
        (NDArray.getTexture (fun _ _ => (1, 1)) p.1 none p.2).isOk)))
      = .ok (false, true, true) := by
  rfl

/-- Witness for C2 (amended): a concrete construction yielding a storage
form, a concrete upload preserving exclusivity, and a concrete download
preserving exclusivity. -/
theorem c2_storage_forms_witness :
    atLeastOneForm ((⟨none, [⟨some (.float32Arr [0,0]), none, none⟩]⟩ : World).recAt
      (⟨some [2], 2, [], 0, 0, DType.float32⟩ : NDArray).dataRef) = true ∧
    (exclusiveForm ((⟨some ⟨[(0, [0])], 1, []⟩,
        [⟨none, some 0, some (1, 1)⟩]⟩ : World).recAt
      (⟨some [1], 1, [], 0, 0, DType.float32⟩ : NDArray).dataRef) = true ∧
      ((⟨some ⟨[(0, [0])], 1, []⟩, [⟨none, some 0, some (1, 1)⟩]⟩ : World).recAt
        (⟨some [1], 1, [], 0, 0, DType.float32⟩ : NDArray).dataRef).texture.isSome
        = true) ∧
    (exclusiveForm ((⟨some ⟨[(0, [0])], 1, [(0, 1, 1)]⟩,
        [⟨some (.float32Arr [0]), none, none⟩]⟩ : World).recAt
      (⟨some [1], 1, [], 0, 0, DType.float32⟩ : NDArray).dataRef) = true ∧
      ((⟨some ⟨[(0, [0])], 1, [(0, 1, 1)]⟩,
          [⟨some (.float32Arr [0]), none, none⟩]⟩ : World).recAt
        (⟨some [1], 1, [], 0, 0, DType.float32⟩ : NDArray).dataRef).values.isSome
        = true) := by
  refine ⟨?_, ?_, ?_⟩
  · exact (c2_storage_forms (fun sh _ => (1, sizeFromShape sh))).1 [2] 0
      DType.float32 ⟨none, [⟨some (.float32Arr [0,0]), none, none⟩]⟩
      ⟨some [2], 2, [], 0, 0, DType.float32⟩
      ⟨none, [⟨some (.float32Arr [0,0]), none, none⟩]⟩ (by rfl)
  · exact (c2_storage_forms (fun sh _ => (1, sizeFromShape sh))).2.1
      ⟨some [1], 1, [], 0, 0, DType.float32⟩ none
      ⟨some ⟨[], 0, []⟩, [⟨some (.float32Arr [0]), none, none⟩]⟩ (some 0)
      ⟨some ⟨[(0, [0])], 1, []⟩, [⟨none, some 0, some (1, 1)⟩]⟩
      (by rfl) (by decide) (by rfl)
  · exact (c2_storage_forms (fun sh _ => (1, sizeFromShape sh))).2.2
      ⟨some [1], 1, [], 0, 0, DType.float32⟩
      ⟨some ⟨[(0, [0])], 1, []⟩, [⟨none, some 0, some (1, 1)⟩]⟩
      (.float32Arr [0])
      ⟨some ⟨[(0, [0])], 1, [(0, 1, 1)]⟩, [⟨some (.float32Arr [0]), none, none⟩]⟩
      (by rfl) (by decide) (by rfl)

/-! ## Claim C7: a disposed tensor -/

theorem setRec_gpu (w : World) (i : Nat) (d : DataRec) :
    (w.setRec i d).gpu = w.gpu := rfl

theorem recAt_setRec_of_le (w : World) (i : Nat) (d : DataRec)
    (h : w.heap.length ≤ i) : (w.setRec i d).recAt i = ⟨none, none, none⟩ := by
  apply recAt_of_length_le
  rw [setRec_heapLength]
  exact h

/-- Inversion of `dispose`: the returned tensor is the original with a
nulled shape, and the (shared) data record has both host values and texture
cleared. -/
theorem dispose_inv (a : NDArray) (w : World) (a1 : NDArray) (w1 : World)
    (h : NDArray.dispose a w = .ok (a1, w1)) :
    a1 = { a with shape := none } ∧
    (w1.recAt a.dataRef).values = none ∧
    (w1.recAt a.dataRef).texture = none := by
  by_cases ht : (w.recAt a.dataRef).texture.isSome = true
  · -- a texture was held: it is released and nulled
    have href : a.dataRef < w.heap.length := by
      by_contra hc
      rw [recAt_of_length_le w a.dataRef (by omega)] at ht
      simp at ht
    simp only [NDArray.dispose, ht, if_true] at h
    rcases hg : w.gpu with _ | g
    · exfalso
      simp only [NDArray.disposeTexture, setRec_gpu, hg] at h
      cases h
    · have hd1 := recAt_setRec_self w a.dataRef
        { w.recAt a.dataRef with values := none } href
      have hdisp := disposeTexture_eq { a with shape := none }
        (w.setRec a.dataRef { w.recAt a.dataRef with values := none }) g
        ((setRec_gpu _ _ _).trans hg) _ hd1
      rw [hdisp] at h
      simp only [Except.map] at h
      injection h with h1
      injection h1 with h2 h3
      subst h3
      refine ⟨h2.symm, ?_, ?_⟩
      · rw [recAt_gpuUpdate, recAt_setRec_self _ _ _ (by rw [setRec_heapLength]; exact href)]
      · rw [recAt_gpuUpdate, recAt_setRec_self _ _ _ (by rw [setRec_heapLength]; exact href)]
  · -- host-only: values and shape are nulled, no release needed
    simp only [NDArray.dispose, ht, if_false] at h
    injection h with h1
    injection h1 with h2 h3
    subst h3
    by_cases href : a.dataRef < w.heap.length
    · refine ⟨h2.symm, ?_, ?_⟩
      · rw [recAt_setRec_self _ _ _ href]
      · rw [recAt_setRec_self _ _ _ href]
        simpa using ht
    · refine ⟨h2.symm, ?_, ?_⟩
      · rw [recAt_setRec_of_le _ _ _ (by omega)]
      · rw [recAt_setRec_of_le _ _ _ (by omega)]

/-- C7 (amended): after `dispose()` the shape is cleared and the storage is
released; every further `getValues` and `get` is rejected with an error, and
`equals` is rejected with an error whenever the other tensor has the same
dtype.  (`equals` against a tensor of a different dtype instead returns
`false` without touching storage: see the counterexample.) -/
theorem c7_disposed_reads (a : NDArray) (w : World) (a1 : NDArray) (w1 : World)
    (h : NDArray.dispose a w = .ok (a1, w1)) :
    a1.shape = none ∧
    (w1.recAt a1.dataRef).values = none ∧
    (w1.recAt a1.dataRef).texture = none ∧
    (NDArray.getValues a1 w1).isOk = false ∧
    (∀ locs, (NDArray.get a1 locs w1).isOk = false) ∧
    (∀ b, b.dtype = a1.dtype → (NDArray.equals a1 b w1).isOk = false) := by
  obtain ⟨ha1, hval, htex⟩ := dispose_inv a w a1 w1 h
  have hdr : a1.dataRef = a.dataRef := by rw [ha1]
  have hsh : a1.shape = none := by rw [ha1]
  have hgv : (NDArray.getValues a1 w1).isOk = false := by
    rcases hgpu : w1.gpu with _ | g
    · simp only [NDArray.getValues, hdr, hval, hgpu]
      rfl
    · simp only [NDArray.getValues, hdr, hval, htex, hgpu]
      rfl
  refine ⟨hsh, by rw [hdr]; exact hval, by rw [hdr]; exact htex, hgv, ?_, ?_⟩
  · intro locs
    unfold NDArray.get
    rcases hcase : NDArray.getValues a1 w1 with e | p
    · rfl
    · rw [hcase] at hgv
      exact Bool.noConfusion hgv
  · intro b hb
    unfold NDArray.equals
    rw [if_pos hb.symm, hsh]
    rfl

/-- Counterexample to C7 as stated: `equals` on a disposed tensor against a
live tensor of a DIFFERENT dtype returns the value `false` (the dtype check
short-circuits) instead of being rejected with an error. -/
theorem c7_counterexample :
    (do
      let p1 ← NDArray.makeNew [1] (.float32Arr [0]) DType.float32 ⟨none, []⟩
      let p2 ← NDArray.makeNew [1] (.int32Arr [0]) DType.int32 p1.2
      let p3 ← NDArray.dispose p1.1 p2.2
      let p4 ← NDArray.equals p3.1 p2.1 p3.2
      pure p4.1 : Except NDError Bool) = .ok false := by
  rfl

/-- Witness for C7 (amended): a concrete host-resident tensor, disposed;
`getValues`, `get(0)` and a same-dtype `equals` are all rejected. -/
theorem c7_disposed_reads_witness :
    (⟨none, 1, [], 0, 0, DType.float32⟩ : NDArray).shape = none ∧
    (NDArray.getValues (⟨none, 1, [], 0, 0, DType.float32⟩ : NDArray)
      ⟨none, [⟨none, none, none⟩]⟩).isOk = false ∧
    (NDArray.get (⟨none, 1, [], 0, 0, DType.float32⟩ : NDArray) [0]
      ⟨none, [⟨none, none, none⟩]⟩).isOk = false ∧
    (NDArray.equals (⟨none, 1, [], 0, 0, DType.float32⟩ : NDArray)
      ⟨some [1], 1, [], 0, 1, DType.float32⟩
      ⟨none, [⟨none, none, none⟩]⟩).isOk = false := by
  have h := c7_disposed_reads ⟨some [1], 1, [], 0, 0, DType.float32⟩
    ⟨none, [⟨some (.float32Arr [5]), none, none⟩]⟩
    ⟨none, 1, [], 0, 0, DType.float32⟩ ⟨none, [⟨none, none, none⟩]⟩ (by rfl)
  exact ⟨h.1, h.2.2.2.1, h.2.2.2.2.1 [0],
    h.2.2.2.2.2 ⟨some [1], 1, [], 0, 1, DType.float32⟩ rfl⟩

/-! ## Claim C3: reshape succeeds exactly on size-preserving shapes -/

theorem wfB_spec (a : NDArray) (w : World) (h : NDArray.wfB a w = true) :
    ∃ sh, a.shape = some sh ∧ a.size = sizeFromShape sh ∧
      a.dataRef < w.heap.length ∧ recWFB (w.recAt a.dataRef) a.size = true := by
  unfold NDArray.wfB at h
  rw [Bool.and_eq_true, Bool.and_eq_true, Bool.and_eq_true] at h
  obtain ⟨⟨⟨h1, h2⟩, h3⟩, h4⟩ := h
  rcases hsh : a.shape with _ | sh
  · rw [hsh] at h1
    simp at h1
  · refine ⟨sh, rfl, ?_, of_decide_eq_true h3, h4⟩
    rw [hsh] at h2
    simpa using h2

/-- C3: for a well-formed tensor and a target shape whose implicit `-1`
dimension (at most one) resolves to `ns`, `reshape` succeeds exactly when
the resolved shape's element count equals the tensor's size, and otherwise
fails with `InvalidShapeError`; on success over host values the result's
shape is the resolved shape. -/
theorem c3_reshape_validity (a : NDArray) (w : World) (newShape : List Int)
    (ns : List Nat)
    (hwf : NDArray.wfB a w = true)
    (hres : inferFromImplicitShape newShape a.size = .ok ns) :
    (a.size = sizeFromShape ns →
      ∃ r w1, NDArray.reshape a newShape w = .ok (r, w1) ∧
        ((w.recAt a.dataRef).values.isSome = true → r.shape = some ns)) ∧
    (a.size ≠ sizeFromShape ns →
      NDArray.reshape a newShape w = .error .invalidShape) := by
  obtain ⟨sh, hsh, hsize, href, hrec⟩ := wfB_spec a w hwf
  constructor
  · intro hsz
    simp only [NDArray.reshape, hres, hsh]
    by_cases he : sh = ns
    · rw [if_pos he]
      exact ⟨a, w, rfl, fun _ => by rw [hsh, he]⟩
    · rw [if_neg he, if_pos hsz]
      have hrec2 : recWFB (w.recAt a.dataRef) (sizeFromShape ns) = true := by
        rw [← hsz]
        exact hrec
      obtain ⟨t, w1, hmk⟩ := make_ok_of_recWFB ns a.dataRef a.dtype w hrec2
      obtain ⟨_, _, _, _, _, _, _, _, _, hshape⟩ := make_inv _ _ _ _ _ _ hmk
      refine ⟨t, w1, hmk, ?_⟩
      intro hvs
      rcases hv : (w.recAt a.dataRef).values with _ | v
      · rw [hv] at hvs
        simp at hvs
      · apply hshape v hv
        have hlv := (recWFB_spec _ _ hrec).2.2 v hv
        rw [← hsz]
        exact hlv.symm
  · intro hsz
    simp only [NDArray.reshape, hres, hsh]
    have he : sh ≠ ns := by
      intro hc
      apply hsz
      rw [hc] at hsize
      exact hsize
    rw [if_neg he, if_neg hsz]

/-- Witness for C3: the spec scenario — a `(6)` vector reshaped by `(-1,2)`
succeeds with shape `(3,2)`; reshaped by `(4,2)` it fails with
`InvalidShapeError`. -/
theorem c3_reshape_validity_witness :
    ((NDArray.reshape (⟨some [6], 6, [], 0, 0, DType.float32⟩ : NDArray)
        [-1, 2] ⟨none, [⟨some (.float32Arr [1,2,3,4,5,6]), none, none⟩]⟩).map
      (fun p => p.1.shape)) = .ok (some [3, 2]) ∧
    NDArray.reshape (⟨some [6], 6, [], 0, 0, DType.float32⟩ : NDArray)
        [4, 2] ⟨none, [⟨some (.float32Arr [1,2,3,4,5,6]), none, none⟩]⟩
      = .error .invalidShape := by
  constructor
  · obtain ⟨r, w1, h1, h2⟩ :=
      (c3_reshape_validity ⟨some [6], 6, [], 0, 0, DType.float32⟩
        ⟨none, [⟨some (.float32Arr [1,2,3,4,5,6]), none, none⟩]⟩
        [-1, 2] [3, 2] (by decide) (by decide)).1 (by decide)
    rw [h1, Except.map, h2 (by decide)]
  · exact (c3_reshape_validity ⟨some [6], 6, [], 0, 0, DType.float32⟩
      ⟨none, [⟨some (.float32Arr [1,2,3,4,5,6]), none, none⟩]⟩
      [4, 2] [4, 2] (by decide) (by decide)).2 (by decide)

/-! ## Claim C4: reshape aliases the storage; disposal hits all aliases -/

theorem dispose_ok_of_no_texture (a : NDArray) (w : World)
    (ht : (w.recAt a.dataRef).texture = none) :
    NDArray.dispose a w = .ok ({ a with shape := none },
      w.setRec a.dataRef { w.recAt a.dataRef with values := none }) := by
  simp only [NDArray.dispose, ht, Option.isSome_none, Bool.false_eq_true,
    if_false]

/-- C4: for a live host-resident tensor and a size-preserving target shape
different from its own, `reshape` returns a tensor over the SAME data record
with the world unchanged (no copy); disposing either alias nulls the shared
record's host values and texture, invalidating the other alias. -/
theorem c4_reshape_alias (a : NDArray) (w : World) (newShape : List Int)
    (ns sh : List Nat) (ta : TypedArray)
    (hsh : a.shape = some sh)
    (hrec : w.recAt a.dataRef = ⟨some ta, none, none⟩)
    (hlen : ta.toList.length = a.size)
    (href : a.dataRef < w.heap.length)
    (hres : inferFromImplicitShape newShape a.size = .ok ns)
    (hne : sh ≠ ns)
    (hsz : a.size = sizeFromShape ns) :
    ∃ r w1, NDArray.reshape a newShape w = .ok (r, w1) ∧
      r.dataRef = a.dataRef ∧ w1 = w ∧
      (∃ a2 w2, NDArray.dispose a w = .ok (a2, w2) ∧ a2.shape = none ∧
        (w2.recAt r.dataRef).values = none ∧
        (w2.recAt r.dataRef).texture = none) ∧
      (∃ r2 w2, NDArray.dispose r w = .ok (r2, w2) ∧
        (w2.recAt a.dataRef).values = none ∧
        (w2.recAt a.dataRef).texture = none) := by
  have hrecWF : recWFB (w.recAt a.dataRef) (sizeFromShape ns) = true := by
    rw [hrec]
    simp [recWFB, hlen, hsz]
  obtain ⟨t, w1, hmk⟩ := make_ok_of_recWFB ns a.dataRef a.dtype w hrecWF
  obtain ⟨hdr, _, _, _, _, _, _, _, hnotex, _⟩ := make_inv _ _ _ _ _ _ hmk
  have hw1 : w1 = w := hnotex (by rw [hrec]; rfl)
  have hreshape : NDArray.reshape a newShape w = .ok (t, w1) := by
    simp only [NDArray.reshape, hres, hsh]
    rw [if_neg hne, if_pos hsz]
    exact hmk
  have hcleared : (w.setRec a.dataRef
      { w.recAt a.dataRef with values := none }).recAt a.dataRef
      = ⟨none, none, none⟩ := by
    rw [recAt_setRec_self _ _ _ href, hrec]
  refine ⟨t, w1, hreshape, hdr, hw1, ?_, ?_⟩
  · refine ⟨_, _, dispose_ok_of_no_texture a w (by rw [hrec]), rfl, ?_, ?_⟩
    · rw [hdr, hcleared]
    · rw [hdr, hcleared]
  · refine ⟨_, _, dispose_ok_of_no_texture t w (by rw [hdr, hrec]), ?_, ?_⟩
    · rw [← hdr] at hcleared ⊢
      rw [hcleared]
    · rw [← hdr] at hcleared ⊢
      rw [hcleared]

/-- Witness for C4: reshaping the `(6)` vector to `(3,2)` aliases the same
record; disposing either side clears the shared storage. -/
theorem c4_reshape_alias_witness :
    ∃ r w1, NDArray.reshape (⟨some [6], 6, [], 0, 0, DType.float32⟩ : NDArray)
        [-1, 2] ⟨none, [⟨some (.float32Arr [1,2,3,4,5,6]), none, none⟩]⟩
        = .ok (r, w1) ∧
      r.dataRef = 0 ∧
      w1 = ⟨none, [⟨some (.float32Arr [1,2,3,4,5,6]), none, none⟩]⟩ ∧
      (∃ a2 w2, NDArray.dispose (⟨some [6], 6, [], 0, 0, DType.float32⟩ : NDArray)
          ⟨none, [⟨some (.float32Arr [1,2,3,4,5,6]), none, none⟩]⟩
          = .ok (a2, w2) ∧ a2.shape = none ∧
        (w2.recAt r.dataRef).values = none ∧
        (w2.recAt r.dataRef).texture = none) ∧
      (∃ r2 w2, NDArray.dispose r
          ⟨none, [⟨some (.float32Arr [1,2,3,4,5,6]), none, none⟩]⟩
          = .ok (r2, w2) ∧
        (w2.recAt 0).values = none ∧
        (w2.recAt 0).texture = none) :=
  c4_reshape_alias ⟨some [6], 6, [], 0, 0, DType.float32⟩
    ⟨none, [⟨some (.float32Arr [1,2,3,4,5,6]), none, none⟩]⟩
    [-1, 2] [3, 2] [6] (.float32Arr [1,2,3,4,5,6])
    rfl rfl (by decide) (by decide) (by decide) (by decide) (by decide)

/-! ## Claim C10: the factories allocate Float32 buffers for every dtype -/

theorem makeNew_ok (shape : List Nat) (vals : TypedArray) (dt : DType)
    (w : World) (hlen : vals.toList.length = sizeFromShape shape) :
    ∃ t w1, NDArray.makeNew shape vals dt w = .ok (t, w1) ∧
      t.dtype = dt ∧
      (w1.recAt t.dataRef).values = some vals ∧
      (w1.recAt t.dataRef).texture = none ∧
      t.shape = some shape := by
  have hrecAt : ({ w with heap := w.heap ++ [⟨some vals, none, none⟩] }
      : World).recAt w.heap.length = ⟨some vals, none, none⟩ :=
    getD_append_length w.heap _ _
  have hwf : recWFB (({ w with heap := w.heap ++ [⟨some vals, none, none⟩] }
      : World).recAt w.heap.length) (sizeFromShape shape) = true := by
    rw [hrecAt]
    simp [recWFB, hlen]
  obtain ⟨t, w1, hmk⟩ := make_ok_of_recWFB shape w.heap.length dt _ hwf
  obtain ⟨hdr, hdt, _, _, hvals, htex, _, _, _, hshape⟩ :=
    make_inv _ _ _ _ _ _ hmk
  refine ⟨t, w1, hmk, hdt, ?_, ?_, ?_⟩
  · rw [hdr, hvals, hrecAt]
  · rw [hdr, htex, hrecAt]
  · exact hshape vals (by rw [hrecAt]) hlen.symm

/-- C10: for every shape and dtype tag (`int32` and `bool` included), the
`zeros` factory allocates the host buffer as a `Float32Array`, and `like`
copies through a `new Float32Array` as well — so a tensor's dtype tag and
the concrete runtime type of its buffer diverge for every non-float tag. -/
theorem c10_float32_buffers (shape : List Nat) (dt : DType) (w : World) :
    (∃ t w1, NDArray.zeros shape dt w = .ok (t, w1) ∧ t.dtype = dt ∧
      (w1.recAt t.dataRef).values
        = some (.float32Arr (List.replicate (sizeFromShape shape) 0))) ∧
    (∀ (a : NDArray) ta sh t w2,
      (w.recAt a.dataRef).values = some ta →
      a.shape = some sh →
      NDArray.like a w = .ok (t, w2) →
      t.dtype = a.dtype ∧
      (w2.recAt t.dataRef).values = some (.float32Arr ta.toList)) ∧
    (dt ≠ DType.float32 →
      ∀ l, DType.bufferMatches dt (.float32Arr l) = false) := by
  refine ⟨?_, ?_, ?_⟩
  · obtain ⟨t, w1, hmk, hdt, hvals, _, _⟩ :=
      makeNew_ok shape (.float32Arr (List.replicate (sizeFromShape shape) 0))
        dt w (by simp [TypedArray.toList, List.length_replicate])
    exact ⟨t, w1, hmk, hdt, hvals⟩
  · intro a ta sh t w2 hv hsh hok
    simp only [NDArray.like, NDArray.getValues, hv, hsh] at hok
    unfold NDArray.makeNew at hok
    obtain ⟨hdr, hdt, _, _, hvals, htex, _, _, _, _⟩ :=
      make_inv _ _ _ _ _ _ hok
    have hrecAt : ({ w with heap := w.heap ++
        [⟨some (.float32Arr ta.toList), none, none⟩] } : World).recAt
        w.heap.length = ⟨some (.float32Arr ta.toList), none, none⟩ :=
      getD_append_length w.heap _ _
    refine ⟨hdt, ?_⟩
    rw [hdr, hvals, hrecAt]
  · intro hne l
    cases dt with
    | float32 => exact absurd rfl hne
    | int32 => rfl
    | bool => rfl

/-- Witness for C10: `zeros([2], int32)` carries a `Float32Array` buffer
under an `int32` tag, a `like` of an `int32` tensor does too, and that
buffer does not match the tag's declared concrete type. -/
theorem c10_float32_buffers_witness :
    (∃ t w1, NDArray.zeros [2] DType.int32 ⟨none, []⟩ = .ok (t, w1) ∧
      t.dtype = DType.int32 ∧
      (w1.recAt t.dataRef).values
        = some (.float32Arr (List.replicate (sizeFromShape [2]) 0))) ∧
    ((⟨some [1], 1, [], 0, 1, DType.int32⟩ : NDArray).dtype = DType.int32 ∧
      ((⟨none, [⟨some (.int32Arr [7]), none, none⟩,
          ⟨some (.float32Arr [7]), none, none⟩]⟩ : World).recAt
        (⟨some [1], 1, [], 0, 1, DType.int32⟩ : NDArray).dataRef).values
        = some (.float32Arr [7])) ∧
    DType.bufferMatches DType.int32 (.float32Arr [0, 0]) = false := by
  refine ⟨?_, ?_, ?_⟩
  · exact (c10_float32_buffers [2] DType.int32 ⟨none, []⟩).1
  · have h := (c10_float32_buffers [1] DType.int32
      ⟨none, [⟨some (.int32Arr [7]), none, none⟩]⟩).2.1
      ⟨some [1], 1, [], 0, 0, DType.int32⟩ (.int32Arr [7]) [1]
      ⟨some [1], 1, [], 0, 1, DType.int32⟩
      ⟨none, [⟨some (.int32Arr [7]), none, none⟩,
        ⟨some (.float32Arr [7]), none, none⟩]⟩
      rfl rfl (by rfl)
    exact h
  · exact (c10_float32_buffers [2] DType.int32 ⟨none, []⟩).2.2
      (by intro hc; cases hc) [0, 0]

/-! ## The stride table -/

theorem getD_lt {α : Type} (l : List α) (i : Nat) (d : α) (h : i < l.length) :
    l.getD i d = l[i] := by
  simp [List.getD, List.getElem?_eq_getElem h]

theorem prod_drop_succ (shape : List Nat) (i : Nat) (h : i < shape.length) :
    (shape.drop i).prod = shape.getD i 0 * (shape.drop (i + 1)).prod := by
  rw [List.drop_eq_getElem_cons h, List.prod_cons, getD_lt shape i 0 h]

theorem stridesLoop_length (shape st : List Nat) (k : Nat) :
    (stridesLoop shape st k).length = st.length := by
  induction k generalizing st with
  | zero => rfl
  | succ n ih => simp [stridesLoop, ih, List.length_set]

theorem stridesLoop_getD (shape : List Nat) (h2 : 2 ≤ shape.length) :
    ∀ (k : Nat) (st : List Nat),
      st.length = shape.length - 1 →
      k ≤ shape.length - 2 →
      (∀ j, k ≤ j → j < shape.length - 1 →
        st.getD j 0 = (shape.drop (j + 1)).prod) →
      ∀ j, j < shape.length - 1 →
        (stridesLoop shape st k).getD j 0 = (shape.drop (j + 1)).prod := by
  intro k
  induction k with
  | zero =>
    intro st _ _ hinv j hj
    exact hinv j (Nat.zero_le j) hj
  | succ n ih =>
    intro st hst hk hinv j hj
    show (stridesLoop shape
      (st.set n (st.getD (n + 1) 0 * shape.getD (n + 1) 0)) n).getD j 0 = _
    apply ih
    · simp [List.length_set, hst]
    · omega
    · intro j2 hj2a hj2b
      by_cases hcase : j2 = n
      · subst hcase
        rw [getD_set_self _ _ _ _ (by omega : j2 < st.length)]
        rw [hinv (j2 + 1) (by omega) (by omega)]
        rw [prod_drop_succ shape (j2 + 1) (by omega)]
        exact Nat.mul_comm _ _
      · rw [getD_set_ne _ _ _ _ _ (fun h => hcase h.symm)]
        exact hinv j2 (by omega) hj2b
    · exact hj

theorem stridesInit_length (shape : List Nat) :
    (stridesInit shape).length = shape.length - 1 := by
  simp [stridesInit, List.length_set, List.length_replicate]

theorem computeStrides_getD (shape : List Nat) (h2 : 2 ≤ shape.length)
    (j : Nat) (hj : j < shape.length - 1) :
    (computeStrides shape).getD j 0 = (shape.drop (j + 1)).prod := by
  unfold computeStrides
  rw [if_neg (by omega)]
  apply stridesLoop_getD shape h2 (shape.length - 2) (stridesInit shape)
    (stridesInit_length shape) (Nat.le_refl _) _ j hj
  intro j2 hj2a hj2b
  have hje : j2 = shape.length - 2 := by omega
  subst hje
  unfold stridesInit
  rw [getD_set_self _ _ _ _ (by simp [List.length_replicate]; omega)]
  have he : shape.length - 2 + 1 = shape.length - 1 := by omega
  rw [he, prod_drop_succ shape (shape.length - 1) (by omega)]
  have hd : shape.length - 1 + 1 = shape.length := by omega
  rw [hd, List.drop_length, List.prod_nil, Nat.mul_one]

theorem computeStrides_length (shape : List Nat) (h2 : 2 ≤ shape.length) :
    (computeStrides shape).length = shape.length - 1 := by
  unfold computeStrides
  rw [if_neg (by omega), stridesLoop_length, stridesInit_length]

theorem computeStrides_short (shape : List Nat) (h2 : shape.length < 2) :
    computeStrides shape = [] := by
  unfold computeStrides
  rw [if_pos h2]

/-! ## Claim C8: the stride table computed at construction -/

/-- C8: for every shape, the stride table computed at construction is empty
when the rank is below 2, and for rank ≥ 2 has length `rank - 1` with
`strides[rank-2] = shape[rank-1]` and `strides[i] = strides[i+1] * shape[i+1]`
for `i < rank - 2`; equivalently `strides[i]` is the product of the
dimensions `shape[i+1..]`. -/
theorem c8_stride_table (shape : List Nat) (ref : Nat) (dt : DType) (w : World)
    (nd : NDArray) (h : NDArray.construct shape ref dt w = .ok nd) :
    (shape.length < 2 → nd.strides = []) ∧
    (2 ≤ shape.length →
      nd.strides.length = shape.length - 1 ∧
      nd.strides.getD (shape.length - 2) 0 = shape.getD (shape.length - 1) 0 ∧
      (∀ i, i + 2 < shape.length →
        nd.strides.getD i 0 = nd.strides.getD (i + 1) 0 * shape.getD (i + 1) 0) ∧
      (∀ i, i < shape.length - 1 →
        nd.strides.getD i 0 = (shape.drop (i + 1)).prod)) := by
  have hnd := ((construct_eq_ok_iff shape ref dt w nd).mp h).2.2.2
  have hs : nd.strides = computeStrides shape := by rw [hnd]
  constructor
  · intro hlt
    rw [hs]
    exact computeStrides_short shape hlt
  · intro h2
    refine ⟨?_, ?_, ?_, ?_⟩
    · rw [hs]
      exact computeStrides_length shape h2
    · rw [hs, computeStrides_getD shape h2 _ (by omega)]
      have he : shape.length - 2 + 1 = shape.length - 1 := by omega
      rw [he, prod_drop_succ shape (shape.length - 1) (by omega)]
      have hd : shape.length - 1 + 1 = shape.length := by omega
      rw [hd, List.drop_length, List.prod_nil, Nat.mul_one]
    · intro i hi
      rw [hs, computeStrides_getD shape h2 i (by omega),
          computeStrides_getD shape h2 (i + 1) (by omega),
          prod_drop_succ shape (i + 1) (by omega)]
      exact Nat.mul_comm _ _
    · intro i hi
      rw [hs]
      exact computeStrides_getD shape h2 i hi

/-- Witness for C8 on the shape `[2,3,4]`: stride 0 is `3·4 = 12`, the
product of the trailing dimensions, and satisfies the recurrence. -/
theorem c8_stride_table_witness :
    (⟨some [2,3,4], 24, [12,4], 0, 0, DType.float32⟩ : NDArray).strides.getD 0 0
        = (([2,3,4] : List Nat).drop 1).prod ∧
    (⟨some [2,3,4], 24, [12,4], 0, 0, DType.float32⟩ : NDArray).strides.getD 0 0
        = (⟨some [2,3,4], 24, [12,4], 0, 0, DType.float32⟩ : NDArray).strides.getD 1 0
            * ([2,3,4] : List Nat).getD 1 0 := by
  have h := c8_stride_table [2,3,4] 0 DType.float32
    ⟨none, [⟨some (.float32Arr (List.replicate 24 0)), none, none⟩]⟩
    ⟨some [2,3,4], 24, [12,4], 0, 0, DType.float32⟩ (by decide)
  exact ⟨(h.2 (by decide)).2.2.2 0 (by decide), (h.2 (by decide)).2.2.1 0 (by decide)⟩

/-! ## Claim C9: row-major addressing of a (2,3) matrix -/

/-- C9: a matrix tensor of shape `(2,3)` built from the flat values
`[1,2,3,4,5,6]` returns `6` from `get(1,2)`, and after `set(9,0,0)`,
`get(0,0)` returns `9` (row-major addressing `row * stride0 + col`). -/
theorem c9_matrix_get_set :
    (do
      let p1 ← NDArray.makeNew [2,3] (.float32Arr [1,2,3,4,5,6])
        DType.float32 ⟨none, []⟩
      let p2 ← Array2D.get p1.1 1 2 p1.2
      let w3 ← Array2D.set p1.1 9 0 0 p2.2
      let p4 ← Array2D.get p1.1 0 0 w3
      pure (p2.1, p4.1) : Except NDError (Int × Int)) = .ok (6, 9) := by
  decide

/-! ## Claim C5: reshape to an element-wise equal shape is the identity -/

theorem countP_negOne_map_ofNat (sh : List Nat) :
    (sh.map Int.ofNat).countP (· == -1) = 0 := by
  induction sh with
  | nil => rfl
  | cons x xs ih =>
    simp only [List.map_cons, List.countP_cons, ih]
    have hne : ¬((Int.ofNat x) = -1) := by
      rw [Int.ofNat_eq_natCast]
      omega
    simp [hne]

theorem any_lt_negOne_map_ofNat (sh : List Nat) :
    (sh.map Int.ofNat).any (· < -1) = false := by
  induction sh with
  | nil => rfl
  | cons x xs ih =>
    simp [List.any_cons, ih]
    omega

theorem map_resolve_map_ofNat (sh : List Nat) (k : Nat) :
    (sh.map Int.ofNat).map (fun d => if d = -1 then k else d.toNat) = sh := by
  induction sh with
  | nil => rfl
  | cons x xs ih =>
    have hne : ¬((Int.ofNat x) = -1) := by
      rw [Int.ofNat_eq_natCast]
      omega
    simp only [List.map_cons, hne, if_false, ih]
    rfl

theorem infer_map_ofNat (sh : List Nat) (size : Nat) :
    inferFromImplicitShape (sh.map Int.ofNat) size = .ok sh := by
  unfold inferFromImplicitShape
  rw [countP_negOne_map_ofNat, any_lt_negOne_map_ofNat,
    if_neg (by omega : ¬(1 < 0)), if_neg (by simp : ¬(false = true))]
  exact congrArg Except.ok (map_resolve_map_ofNat sh _)

/-- C5: calling `reshape` with a shape element-wise equal to the tensor's
own shape returns the very same tensor instance, with no copy and no change
to any storage (the world is untouched). -/
theorem c5_reshape_identity (a : NDArray) (w : World) (sh : List Nat)
    (h : a.shape = some sh) :
    NDArray.reshape a (sh.map Int.ofNat) w = .ok (a, w) := by
  unfold NDArray.reshape
  rw [infer_map_ofNat, h]
  simp

/-- Witness for C5: reshaping a live `(2,3)` tensor by `[2,3]` returns it
unchanged together with the unchanged world. -/
theorem c5_reshape_identity_witness :
    NDArray.reshape (⟨some [2,3], 6, [3], 3, 0, DType.float32⟩ : NDArray)
        (([2,3] : List Nat).map Int.ofNat)
        ⟨none, [⟨some (.float32Arr [1,2,3,4,5,6]), none, none⟩]⟩
      = .ok (⟨some [2,3], 6, [3], 3, 0, DType.float32⟩,
             ⟨none, [⟨some (.float32Arr [1,2,3,4,5,6]), none, none⟩]⟩) :=
  c5_reshape_identity _ _ [2,3] rfl

/-! ## Claim C6: construction-time validation -/

/-- C6 (amended): construction fails with `ShapeMismatchError` when host
values are supplied whose length differs from the shape's element count, and
with `IncompleteStorageError` when a texture is given without its 2D layout;
construction with a consistent single storage form succeeds.  (A layout
without the texture is NOT rejected: see the counterexample.) -/
theorem c6_construction_checks (shape : List Nat) (ref : Nat) (dt : DType)
    (w : World) :
    ((w.recAt ref).texture.isSome = true → (w.recAt ref).textureShapeRC = none →
      NDArray.construct shape ref dt w = .error .incompleteStorage) ∧
    (∀ v, (w.recAt ref).values = some v →
      ((w.recAt ref).texture.isSome = true →
        (w.recAt ref).textureShapeRC.isSome = true) →
      v.toList.length ≠ sizeFromShape shape →
      NDArray.construct shape ref dt w = .error .shapeMismatch) ∧
    (∀ v, w.recAt ref = ⟨some v, none, none⟩ →
      v.toList.length = sizeFromShape shape →
      ∃ nd, NDArray.construct shape ref dt w = .ok nd) ∧
    (∀ tex rc, w.recAt ref = ⟨none, some tex, some rc⟩ →
      ∃ nd, NDArray.construct shape ref dt w = .ok nd) := by
  refine ⟨?_, ?_, ?_, ?_⟩
  · intro ht hrc
    rcases htex : (w.recAt ref).texture with _ | tex
    · rw [htex] at ht
      simp at ht
    · unfold NDArray.construct
      rcases hv : (w.recAt ref).values with _ | v <;> simp [hv, htex, hrc]
  · intro v hv htc hlen
    unfold NDArray.construct
    rcases htex : (w.recAt ref).texture with _ | tex
    · simp only [hv, htex, Option.isNone_some, Option.isSome_none,
        Option.isNone_none, Bool.false_and, Bool.and_false, if_false,
        Bool.false_eq_true, ite_false]
      rw [if_neg (fun hc => hlen hc.symm)]
    · have hrc := htc (by rw [htex]; rfl)
      rcases hrc2 : (w.recAt ref).textureShapeRC with _ | rc
      · rw [hrc2] at hrc
        simp at hrc
      · simp only [hv, htex, hrc2, Option.isNone_some, Option.isSome_some,
          Option.isSome_none, Bool.false_and, Bool.and_false, Bool.true_and,
          if_false, Bool.false_eq_true, ite_false]
        rw [if_neg (fun hc => hlen hc.symm)]
  · intro v hrec hlen
    refine ⟨⟨some shape, sizeFromShape shape, computeStrides shape, 0, ref, dt⟩, ?_⟩
    rw [construct_eq_ok_iff]
    refine ⟨?_, ?_, ?_, rfl⟩
    · simp [atLeastOneForm, hrec]
    · simp [hrec]
    · intro v2 hv2
      rw [hrec] at hv2
      cases hv2
      exact hlen.symm
  · intro tex rc hrec
    refine ⟨⟨some shape, sizeFromShape shape, computeStrides shape, 0, ref, dt⟩, ?_⟩
    rw [construct_eq_ok_iff]
    refine ⟨?_, ?_, ?_, rfl⟩
    · simp [atLeastOneForm, hrec]
    · simp [hrec]
    · intro v2 hv2
      rw [hrec] at hv2
      cases hv2

/-- Counterexample to C6 as stated: a 2D layout given WITHOUT the texture
("vice versa") does not make construction fail — with consistent host
values present, the constructor succeeds. -/
theorem c6_counterexample :
    (NDArray.construct [1] 0 DType.float32
      ⟨none, [⟨some (.float32Arr [0]), none, some (1, 1)⟩]⟩).isOk = true := by
  rfl

/-- Witness for C6 (amended): concrete constructions exercising the two
error paths and the two consistent single-form success paths. -/
theorem c6_construction_checks_witness :
    NDArray.construct [1] 0 DType.float32
        ⟨none, [⟨some (.float32Arr [0]), some 3, none⟩]⟩
      = .error .incompleteStorage ∧
    NDArray.construct [2] 0 DType.float32
        ⟨none, [⟨some (.float32Arr [0]), none, none⟩]⟩
      = .error .shapeMismatch ∧
    (∃ nd, NDArray.construct [1] 0 DType.float32
        ⟨none, [⟨some (.float32Arr [0]), none, none⟩]⟩ = .ok nd) ∧
    (∃ nd, NDArray.construct [1] 0 DType.float32
        ⟨none, [⟨none, some 3, some (1, 1)⟩]⟩ = .ok nd) := by
  refine ⟨?_, ?_, ?_, ?_⟩
  · exact (c6_construction_checks [1] 0 DType.float32
      ⟨none, [⟨some (.float32Arr [0]), some 3, none⟩]⟩).1 (by rfl) (by rfl)
  · exact (c6_construction_checks [2] 0 DType.float32
      ⟨none, [⟨some (.float32Arr [0]), none, none⟩]⟩).2.1
      (.float32Arr [0]) (by rfl) (by intro h; cases h) (by decide)
  · exact (c6_construction_checks [1] 0 DType.float32
      ⟨none, [⟨some (.float32Arr [0]), none, none⟩]⟩).2.2.1
      (.float32Arr [0]) (by rfl) (by decide)
  · exact (c6_construction_checks [1] 0 DType.float32
      ⟨none, [⟨none, some 3, some (1, 1)⟩]⟩).2.2.2 3 (1, 1) (by rfl)

end NDSpec
